import Mathlib

/-!
Verification of saiko (a Discord chat-bot runtime) against its specification.

The development shallowly embeds the core of `src/saiko.js` (configuration
resolver, event dispatcher, response reconciler, data loading) and the
`Logger` class. JavaScript values appearing in configuration trees are
modelled by the inductive type `JValue`; JavaScript `undefined` (an absent
property) is modelled by `Option JValue` being `none`. Machine details that
the claims do not touch (the Discord client, file I/O, plugin loading) are
abstracted: the transport is an oracle deciding which send/edit/delete
calls succeed, and plugin handlers are values recording what each handler
returns for the event under consideration.
-/

set_option autoImplicit false

namespace Saiko

/-- A JSON-like JavaScript value, as stored in saiko's configuration data. -/
inductive JValue : Type where
  | null : JValue
  | bool : Bool → JValue
  | num : Int → JValue
  | str : String → JValue
  | arr : List JValue → JValue
  | obj : List (String × JValue) → JValue

/-- Property lookup in an object's field list (first match wins). -/
def findField : List (String × JValue) → String → Option JValue
  | [], _ => none
  | (k0, v) :: rest, k => if k0 = k then some v else findField rest k

theorem findField_sizeOf {fs : List (String × JValue)} {k : String} {w : JValue}
    (h : findField fs k = some w) : sizeOf w < sizeOf fs := by
  induction fs with
  | nil => simp [findField] at h
  | cons kv rest ih =>
    obtain ⟨k0, v⟩ := kv
    simp only [findField] at h
    split at h
    · cases h
      simp only [List.cons.sizeOf_spec, Prod.mk.sizeOf_spec]
      omega
    · have := ih h
      simp only [List.cons.sizeOf_spec, Prod.mk.sizeOf_spec]
      omega

/-- Fields of the source object whose key does not occur in the target object;
these are appended after the target's fields by the deep merge. -/
def mergeNew (tf sf : List (String × JValue)) : List (String × JValue) :=
  sf.filter (fun kv => (findField tf kv.1).isNone)

mutual

/-- Modelled from the spec: `Object.deepAssign` (src/extension/Object.deepAssign.js,
not under src/). Per the spec, `merge` performs a recursive deep merge: for each
key, if both sides hold nested mappings, merge recursively; otherwise the
higher-precedence (source) side wins outright, including full replacement of
arrays. Existing target keys keep their position; keys only present in the
source are appended in source order. -/
def deepAssign : JValue → JValue → JValue
  | JValue.obj tf, JValue.obj sf => JValue.obj (mergeOld tf sf ++ mergeNew tf sf)
  | _, s => s
termination_by t s => sizeOf t + sizeOf s

/-- The target's fields after merging in the source: a field whose key also
occurs in the source gets the deep merge of the two values. -/
def mergeOld : List (String × JValue) → List (String × JValue) → List (String × JValue)
  | [], _ => []
  | (k, v) :: rest, sf =>
    (k,
      match hf : findField sf k with
      | some w => deepAssign v w
      | none => v) :: mergeOld rest sf
termination_by tf sf => sizeOf tf + sizeOf sf
decreasing_by
  · have := findField_sizeOf hf
    simp only [List.cons.sizeOf_spec, Prod.mk.sizeOf_spec]
    omega
  · simp only [List.cons.sizeOf_spec, Prod.mk.sizeOf_spec]
    omega

end

/-- One source of the variadic `Object.deepAssign(target, ...sources)`:
a source that is absent (`undefined`) or not an object carries no own
enumerable properties, so it is skipped — this is how the spec's "missing
layers are treated as empty mappings" materialises. -/
def deepAssignStep (acc : JValue) (s : Option JValue) : JValue :=
  match s with
  | some (JValue.obj sf) => deepAssign acc (JValue.obj sf)
  | _ => acc

/-- The variadic `Object.deepAssign(target, ...sources)`: sources are folded
into the target left to right. -/
def deepAssignSources (t : JValue) (sources : List (Option JValue)) : JValue :=
  sources.foldl deepAssignStep t

/-- JavaScript property access `v[k]`: only objects yield a value. -/
def jIndex : JValue → String → Option JValue
  | JValue.obj fs, k => findField fs k
  | _, _ => none

/-- JavaScript truthiness of a value. -/
def jTruthy : JValue → Bool
  | JValue.null => false
  | JValue.bool b => b
  | JValue.num n => n != 0
  | JValue.str s => s != ""
  | JValue.arr _ => true
  | JValue.obj _ => true

/-- The JavaScript idiom `x || d`: `d` when `x` is absent or falsy. -/
def jOrDefault (x : Option JValue) (d : JValue) : JValue :=
  match x with
  | some v => if jTruthy v then v else d
  | none => d

/-- JavaScript `typeof` applied to a possibly absent value. Note that
`typeof null` is the string "object". -/
def jTypeof : Option JValue → String
  | none => "undefined"
  | some JValue.null => "object"
  | some (JValue.bool _) => "boolean"
  | some (JValue.num _) => "number"
  | some (JValue.str _) => "string"
  | some (JValue.arr _) => "object"
  | some (JValue.obj _) => "object"

/-- JavaScript `Array.isArray` applied to a possibly absent value. -/
def jIsArray : Option JValue → Bool
  | some (JValue.arr _) => true
  | _ => false

/-! Configuration resolver (src/saiko.js lines 159-194 and 324-332). -/

/-- A Discord channel, as far as the configuration resolver inspects it:
its id, its type string, and — when the type is "text" — its parent guild. -/
structure Channel : Type where
  id : String
  type : String
  guildId : String

/-- A Discord guild, as far as the configuration resolver inspects it. -/
structure Guild : Type where
  id : String

/-- A place, the argument of `getPluginConfig`/`isPluginEnabled`: a guild or a
channel. -/
inductive Place : Type where
  | guild : Guild → Place
  | channel : Channel → Place

/-- The configuration-relevant part of `this.data` in the `Saiko` class:
the `defaults`, `guilds` and `channels` properties. -/
structure SaikoData : Type where
  defaults : JValue
  guilds : JValue
  channels : JValue

/-- Saiko#getChannelConfig (src/saiko.js lines 162-170):
`Object.deepAssign({}, defaults, noGuild || guilds[channel.guild.id],
channels[channel.id])`. For a non-text channel the `||` short-circuits to the
boolean `true`, which `deepAssign` skips as a non-object source; an absent
guild or channel layer (`undefined`) is likewise skipped. -/
def getChannelConfig (d : SaikoData) (ch : Channel) : JValue :=
  let noGuild := ch.type ≠ "text"
  deepAssignSources (JValue.obj [])
    [some d.defaults,
     if noGuild then some (JValue.bool true) else jIndex d.guilds ch.guildId,
     jIndex d.channels ch.id]

/-- Saiko#getGuildConfig (src/saiko.js lines 175-180). -/
def getGuildConfig (d : SaikoData) (g : Guild) : JValue :=
  deepAssignSources (JValue.obj []) [some d.defaults, jIndex d.guilds g.id]

/-- Saiko#getPluginConfig (src/saiko.js lines 186-194). The source dispatches
on `discordTools.getPlaceType(place)` (src/lib/discord-tools.js, not under
src/); per the spec a guild's place type is "guild" and a channel's place type
is its own type string, one of text/dm/group/voice, so the string dispatch
reduces to this match. The plugin fragment is
`(placeConfig.plugins || emptyObject)[plugin.name] || emptyObject`. -/
def getPluginConfig (d : SaikoData) (pluginName : String) (place : Place) : JValue :=
  let placeConfig :=
    match place with
    | Place.guild g => getGuildConfig d g
    | Place.channel ch =>
        if ch.type ∈ ["text", "dm", "group", "voice"] then getChannelConfig d ch
        else JValue.obj []
  jOrDefault (jIndex (jOrDefault (jIndex placeConfig "plugins") (JValue.obj [])) pluginName)
    (JValue.obj [])

/-- Saiko#isPluginEnabled (src/saiko.js lines 328-332):
`pluginConfig.enabled === true`, a strict equality with the boolean true. -/
def isPluginEnabled (d : SaikoData) (pluginName : String) (place : Place) : Bool :=
  match jIndex (getPluginConfig d pluginName place) "enabled" with
  | some (JValue.bool true) => true
  | _ => false

/-! Event dispatcher (src/saiko.js lines 233-244). -/

/-- A plugin's response: new posts to send and edits to already sent messages.
Post and edit contents are opaque to the dispatcher and the reconciler (they
are spread verbatim into `channel.send` and `message.edit`), so both are
modelled as strings. Per the spec's data model, `posts` and `edits` are always
present as (possibly empty) ordered sequences. -/
structure Response : Type where
  posts : List String
  edits : List String

/-- A plugin, restricted to one fixed inbound event: its name (used for the
configuration lookup) and the value its handler for that event returns when
invoked (`null` is `none`). -/
structure Plugin : Type where
  name : String
  handlerResult : Option Response

/-- The plugin loop of `handleEvent` (src/saiko.js lines 236-244), with the
running `response` accumulator made explicit. For each plugin in registration
order: if the plugin is enabled for the channel, its handler is invoked
(recorded in the first component) and, per
`if (not response and pluginResponse) response = pluginResponse`, the
accumulator is updated only while it is still null. -/
def dispatchFrom (d : SaikoData) (place : Place) :
    Option Response → List Plugin → List String × Option Response
  | resp, [] => ([], resp)
  | resp, p :: rest =>
    if isPluginEnabled d p.name place then
      let pluginResponse := p.handlerResult
      let resp2 :=
        match resp with
        | none => pluginResponse
        | some r => some r
      let step := dispatchFrom d place resp2 rest
      (p.name :: step.1, step.2)
    else
      dispatchFrom d place resp rest

/-- The complete plugin loop: names of the plugins whose handler was invoked,
in order, and the aggregate response handed to reconciliation. -/
def dispatch (d : SaikoData) (place : Place) (plugins : List Plugin) :
    List String × Option Response :=
  dispatchFrom d place none plugins

/-! Response reconciler (src/saiko.js lines 246-313). -/

/-- A handle to a message the bot has sent (a `Discord.Message` object as far
as the reconciler is concerned). -/
abbrev Handle := Nat

/-- A transport call attempted during reconciliation, in order. -/
inductive Call : Type where
  | del : Handle → Call
  | edit : Handle → String → Call
  | send : String → Call
deriving DecidableEq

/-- The transport oracle: which delete calls succeed, what each edit call
returns (`none` is a failure, `some h` a success returning handle `h`), and
which send calls succeed (indexed by the position of the send within the
event's send phase). A successful send returns a fresh handle drawn from a
counter carried by the reconciler. -/
structure Transport : Type where
  delOk : Handle → Bool
  editRes : Handle → String → Option Handle
  sendOk : Nat → Bool

/-- The front-deletion loop (src/saiko.js lines 254-261 and 270-277):
`try: while (sent.length > 0) await sent[0].delete(); sent.shift()` with one
`catch` around the whole loop. A failed delete raises, so the loop stops after
the failed attempt: the failed handle and everything behind it stay in the
ledger sequence. Returns the remaining sequence and the calls attempted. -/
def deleteAllFront (tr : Transport) : List Handle → List Handle × List Call
  | [] => ([], [])
  | h :: rest =>
    if tr.delOk h then
      let step := deleteAllFront tr rest
      (step.1, Call.del h :: step.2)
    else (h :: rest, [Call.del h])

/-- The tail-deletion loop body, with the number of remaining iterations made
explicit (each successful iteration pops exactly one element, so the loop
`while (sent.length > edits.length)` runs at most `sent.length - edits.length`
times; a failed delete raises out of the single surrounding `try`). -/
def deleteTailLoop (tr : Transport) : List Handle → Nat → List Handle × List Call
  | s, 0 => (s, [])
  | s, n + 1 =>
    match s.getLast? with
    | none => (s, [])
    | some last =>
      if tr.delOk last then
        let step := deleteTailLoop tr s.dropLast n
        (step.1, Call.del last :: step.2)
      else (s, [Call.del last])

/-- The tail-deletion loop (src/saiko.js lines 283-290):
`try: while (sent.length > edits.length) await sent[sent.length-1].delete();
sent.pop()` with one `catch` around the whole loop. -/
def deleteTail (tr : Transport) (target : Nat) (s : List Handle) :
    List Handle × List Call :=
  deleteTailLoop tr s (s.length - target)

/-- The edit loop (src/saiko.js lines 292-299): `try: for ([index, post] of
edits.entries()) { sent[index] = await sent[index].edit(...post) }` with one
`catch` around the whole loop. A failed edit raises, aborting the remaining
edits; earlier entries keep their replaced handles. -/
def editLoop (tr : Transport) : List Handle → Nat → List String → List Handle × List Call
  | s, _, [] => (s, [])
  | s, i, c :: rest =>
    match s[i]? with
    | none => (s, [])
    | some h =>
      match tr.editRes h c with
      | some h2 =>
        let step := editLoop tr (s.set i h2) (i + 1) rest
        (step.1, Call.edit h c :: step.2)
      | none => (s, [Call.edit h c])

/-- The send loop (src/saiko.js lines 303-309): each send is wrapped in its
own `try`, so every post gets a send attempt; a successful send pushes the
returned (fresh) handle. `k` counts send attempts for the oracle, `fresh` is
the fresh-handle counter. Returns the sequence, the calls and the counter. -/
def sendPhase (tr : Transport) : List String → Nat → Nat → List Handle →
    List Handle × List Call × Nat
  | [], _, fresh, s => (s, [], fresh)
  | c :: rest, k, fresh, s =>
    if tr.sendOk k then
      let step := sendPhase tr rest (k + 1) (fresh + 1) (s ++ [fresh])
      (step.1, Call.send c :: step.2.1, step.2.2)
    else
      let step := sendPhase tr rest (k + 1) fresh s
      (step.1, Call.send c :: step.2.1, step.2.2)

/-- The sent-message ledger `this.responses`: trigger message id to the
sequence of handles of the messages sent in response to that trigger. -/
abbrev Ledger := List (Nat × List Handle)

/-- Ledger lookup (`this.responses.get(message.id)`). -/
def ledgerGet : Ledger → Nat → Option (List Handle)
  | [], _ => none
  | (i, s) :: rest, j => if i = j then some s else ledgerGet rest j

/-- Ledger update (`this.responses.set(message.id, sentMessages)`). -/
def ledgerSet : Ledger → Nat → List Handle → Ledger
  | [], j, s => [(j, s)]
  | (i, v) :: rest, j, s =>
    if i = j then (i, s) :: rest else (i, v) :: ledgerSet rest j s

/-- The outcome of reconciling one event: the ledger afterwards, the transport
calls attempted in order, and the fresh-handle counter afterwards. -/
structure RecOutcome : Type where
  ledger : Ledger
  calls : List Call
  fresh : Nat
deriving DecidableEq

/-- The reconciliation part of `handleEvent` (src/saiko.js lines 246-313),
taking the aggregate `response` computed by the plugin loop.

The first guard (line 252) is `(eventName === 'messageDelete' &&
!(response || emptyObject).edits) || (eventName === 'messageUpdate' &&
!response)`. In the Response data model `edits` is always an array, and an
array — even an empty one — is truthy in JavaScript, so
`!(response || emptyObject).edits` holds exactly when `response` is null.

In JavaScript `sentMessages` aliases the array stored in the ledger, and
`shift`/`pop`/`push` mutate it in place; so when the guard's deletions run
with a null response (where `this.responses.set` is never called), an
existing ledger entry still ends up holding the shrunken sequence. The model
makes that in-place mutation explicit by writing the sequence back exactly
when the entry already existed. -/
def reconcile (tr : Transport) (eventName : String) (msgId : Nat)
    (response : Option Response) (led : Ledger) (fresh : Nat) : RecOutcome :=
  let sent0 := (ledgerGet led msgId).getD []
  let wipeFirst : Bool :=
    (eventName == "messageDelete" && response.isNone) ||
    (eventName == "messageUpdate" && response.isNone)
  let front := if wipeFirst then deleteAllFront tr sent0 else (sent0, [])
  match response with
  | none =>
    { ledger := if (ledgerGet led msgId).isSome then ledgerSet led msgId front.1 else led
      calls := front.2
      fresh := fresh }
  | some r =>
    let middle :=
      if r.edits.length > 0 then
        if r.edits.length > front.1.length then
          let wiped := deleteAllFront tr front.1
          (wiped.1, wiped.2, r.posts ++ r.edits)
        else
          let shrunk := deleteTail tr r.edits.length front.1
          let edited := editLoop tr shrunk.1 0 r.edits
          (edited.1, shrunk.2 ++ edited.2, r.posts)
      else (front.1, [], r.posts)
    let sent3 := sendPhase tr middle.2.2 0 fresh middle.1
    { ledger := ledgerSet led msgId sent3.1
      calls := front.2 ++ middle.2.1 ++ sent3.2.1
      fresh := sent3.2.2 }

/-! Logger (src/lib/logger.js) and data loading (src/saiko.js lines 54-84). -/

/-- The options object handed to the `Logger` constructor; each flag may be
absent (`undefined`). -/
structure LoggerOptions : Type where
  enabled : Option Bool
  showDebug : Option Bool
  showWarnings : Option Bool
  showErrors : Option Bool
  showPanics : Option Bool

/-- A constructed `Logger` (src/lib/logger.js lines 13-19). -/
structure Logger : Type where
  enabled : Bool
  showDebug : Bool
  showWarnings : Bool
  showErrors : Bool
  showPanics : Bool

/-- The `Logger` constructor: `enabled = options.enabled !== false`,
`showDebug = options.showDebug === true`, and the remaining flags default to
true like `enabled`. -/
def mkLogger (o : LoggerOptions) : Logger :=
  { enabled := o.enabled != some false
    showDebug := o.showDebug == some true
    showWarnings := o.showWarnings != some false
    showErrors := o.showErrors != some false
    showPanics := o.showPanics != some false }

/-- Whether `Logger#panic` (src/lib/logger.js lines 92-103) reaches
`process.exit(1)`: the method returns early — without exiting — when
`!this.enabled || !this.showPanics`. -/
def Logger.panicTerminates (l : Logger) : Bool :=
  l.enabled && l.showPanics

/-- The outcome of `Saiko#loadData`: either the process was terminated by
`Logger#panic` reaching `process.exit(1)`, or the method returned the
(normalised) data object. -/
inductive LoadResult : Type where
  | exited : Nat → LoadResult
  | ok : List (String × JValue) → LoadResult

/-- JavaScript property assignment `data[p] = v` on an object: an existing
key keeps its position, a new key is appended. -/
def setField : List (String × JValue) → String → JValue → List (String × JValue)
  | [], k, v => [(k, v)]
  | (k0, v0) :: rest, k, v =>
    if k0 = k then (k0, v) :: rest else (k0, v0) :: setField rest k v

/-- The object-property normalisation step of `Saiko#loadData`
(src/saiko.js lines 76-78): `if (typeof data[p] !== 'object' ||
Array.isArray(data[p])) data[p] = {}`. Note `typeof null` is "object", so a
null property passes the check untouched. -/
def normalizeProp (d : List (String × JValue)) (p : String) :
    List (String × JValue) :=
  if jTypeof (findField d p) != "object" || jIsArray (findField d p) then
    setField d p (JValue.obj [])
  else d

/-- The `requiredProperties` list of `Saiko#loadData`. -/
def requiredProperties : List String := ["token"]

/-- The `objectProperties` list of `Saiko#loadData`. -/
def objectProperties : List String := ["defaults", "guilds", "channels"]

/-- Saiko#loadData (src/saiko.js lines 54-84), applied to the already parsed
JSON data object (the file's top-level object, as a field list). The required
properties missing from the data (`data[p] === undefined`) are collected; if
any is missing, `this.logger.panic` is called, which terminates the process
only when the logger is enabled and shows panics — otherwise it merely
returns, and the method continues: the `arrayProperties` list is empty, each
of the `objectProperties` is normalised, and the data is returned. -/
def loadData (logger : Logger) (d : List (String × JValue)) : LoadResult :=
  let missingRequired := requiredProperties.filter (fun p => (findField d p).isNone)
  if missingRequired.length > 0 && logger.panicTerminates then LoadResult.exited 1
  else LoadResult.ok (objectProperties.foldl normalizeProp d)

/-! Spec-side definitions used by the refinement statements, and concrete
fixtures used by witnesses and counterexamples. -/

/-- Reading of one configuration layer per the spec's words: a missing layer,
or one that is not a mapping, is treated as an empty mapping. -/
def layerOrEmpty : Option JValue → JValue
  | some (JValue.obj fs) => JValue.obj fs
  | _ => JValue.obj []

/-- The spec's statement of the resolved place config for a text channel in a
guild: the defaults layer, deep-merged with the guild layer, deep-merged with
the channel layer (each missing layer an empty mapping), the later layer
winning key conflicts. Stated from the spec's words for comparison with
`getChannelConfig`. -/
def mergedPlaceConfigSpec (d : SaikoData) (ch : Channel) : JValue :=
  deepAssign
    (deepAssign (layerOrEmpty (some d.defaults)) (layerOrEmpty (jIndex d.guilds ch.guildId)))
    (layerOrEmpty (jIndex d.channels ch.id))

/-- A transport on which every call succeeds; an edit returns the edited
message's own handle. -/
def trAllOk : Transport :=
  { delOk := fun _ => true, editRes := fun h _ => some h, sendOk := fun _ => true }

/-- A transport on which deleting the message with handle 1 fails and every
other call succeeds. -/
def trFailDelOne : Transport :=
  { delOk := fun h => h != 1, editRes := fun h _ => some h, sendOk := fun _ => true }

/-- A transport on which every edit fails and every other call succeeds. -/
def trFailEdit : Transport :=
  { delOk := fun _ => true, editRes := fun _ _ => none, sendOk := fun _ => true }

/-- A transport on which the first send of an event fails and every other
call succeeds. -/
def trFailSendZero : Transport :=
  { delOk := fun _ => true, editRes := fun h _ => some h, sendOk := fun k => k != 0 }

/-- The spec's merge-precedence example data: defaults with a scalar and a
nested mapping, a guild layer overriding inside the nested mapping, and a
channel layer overriding the scalar. -/
def exMergeData : SaikoData :=
  { defaults := JValue.obj [("a", JValue.num 1), ("b", JValue.obj [("x", JValue.num 1)])]
    guilds := JValue.obj
      [("G", JValue.obj [("b", JValue.obj [("x", JValue.num 2), ("y", JValue.num 3)])])]
    channels := JValue.obj [("C", JValue.obj [("a", JValue.num 5)])] }

/-- The spec's merge-precedence example channel: a text channel in guild G. -/
def exChannel : Channel := { id := "C", type := "text", guildId := "G" }

/-- A direct-message channel used by the enablement and dispatch fixtures. -/
def dmChannel : Channel := { id := "C", type := "dm", guildId := "G" }

/-- Data whose defaults bind plugin A's `enabled` to the string "true". -/
def enabledStrData : SaikoData :=
  { defaults := JValue.obj
      [("plugins", JValue.obj [("A", JValue.obj [("enabled", JValue.str "true")])])]
    guilds := JValue.obj []
    channels := JValue.obj [] }

/-- Data whose defaults bind plugin A's `enabled` to the number 1. -/
def enabledNumData : SaikoData :=
  { defaults := JValue.obj
      [("plugins", JValue.obj [("A", JValue.obj [("enabled", JValue.num 1)])])]
    guilds := JValue.obj []
    channels := JValue.obj [] }

/-- Data whose configuration has no fragment for plugin A at all. -/
def noFragmentData : SaikoData :=
  { defaults := JValue.obj [("plugins", JValue.obj [])]
    guilds := JValue.obj []
    channels := JValue.obj [] }

/-- Data enabling both plugin A and plugin B everywhere. -/
def bothEnabledData : SaikoData :=
  { defaults := JValue.obj
      [("plugins", JValue.obj
        [("A", JValue.obj [("enabled", JValue.bool true)]),
         ("B", JValue.obj [("enabled", JValue.bool true)])])]
    guilds := JValue.obj []
    channels := JValue.obj [] }

/-- The response plugin A returns in the dispatch fixture. -/
def respA : Response := { posts := ["a1"], edits := [] }

/-- The response plugin B returns in the dispatch fixture. -/
def respB : Response := { posts := ["b1"], edits := [] }

/-- The logger constructed with all options defaulted (enabled, panics shown). -/
def defaultLogger : Logger :=
  mkLogger { enabled := none, showDebug := none, showWarnings := none,
             showErrors := none, showPanics := none }

/-- The logger constructed with logging disabled. -/
def disabledLogger : Logger :=
  mkLogger { enabled := some false, showDebug := none, showWarnings := none,
             showErrors := none, showPanics := none }

/-! Lemmas about the reconciliation phases on a transport where every call
they attempt succeeds, and about the ledger operations. -/

theorem deleteAllFront_ok (tr : Transport) (s : List Handle)
    (h : ∀ x ∈ s, tr.delOk x = true) :
    deleteAllFront tr s = ([], s.map Call.del) := by
  induction s with
  | nil => rfl
  | cons a rest ih =>
    have ha : tr.delOk a = true := h a (List.mem_cons_self a rest)
    have ih2 := ih (fun x hx => h x (List.mem_cons_of_mem a hx))
    simp [deleteAllFront, ha, ih2]

theorem deleteTailLoop_ok (tr : Transport) :
    ∀ (n : Nat) (s : List Handle), (∀ x ∈ s, tr.delOk x = true) → n ≤ s.length →
      deleteTailLoop tr s n =
        (s.take (s.length - n), ((s.drop (s.length - n)).reverse).map Call.del) := by
  intro n
  induction n with
  | zero =>
    intro s _ _
    simp [deleteTailLoop]
  | succ n ih =>
    intro s h hn
    rcases List.eq_nil_or_concat s with rfl | ⟨init, last, rfl⟩
    · simp at hn
    · simp only [List.concat_eq_append] at h hn ⊢
      have hlen : (init ++ [last]).length = init.length + 1 := by simp
      have hd : tr.delOk last = true := h last (by simp)
      have ih2 := ih init (fun x hx => h x (by simp [hx])) (by rw [hlen] at hn; omega)
      have hm : (init ++ [last]).length - (n + 1) = init.length - n := by rw [hlen]; omega
      have hmle : init.length - n ≤ init.length := by omega
      simp only [deleteTailLoop, List.getLast?_concat, hd, if_true, List.dropLast_concat, ih2]
      rw [hm, List.take_append_of_le_length hmle, List.drop_append_of_le_length hmle]
      simp

theorem deleteTail_ok (tr : Transport) (target : Nat) (s : List Handle)
    (h : ∀ x ∈ s, tr.delOk x = true) (hle : target ≤ s.length) :
    deleteTail tr target s = (s.take target, ((s.drop target).reverse).map Call.del) := by
  have h1 : s.length - (s.length - target) = target := by omega
  have h2 := deleteTailLoop_ok tr (s.length - target) s h (by omega)
  rw [deleteTail, h2, h1]

theorem editLoop_ok (tr : Transport) (ed : Handle → String → Handle)
    (hed : ∀ h c, tr.editRes h c = some (ed h c)) :
    ∀ (edits : List String) (pre s : List Handle), s.length = edits.length →
      editLoop tr (pre ++ s) pre.length edits =
        (pre ++ List.zipWith ed s edits, List.zipWith Call.edit s edits) := by
  intro edits
  induction edits with
  | nil =>
    intro pre s hlen
    have hs : s = [] := List.eq_nil_of_length_eq_zero (by simpa using hlen)
    subst hs
    simp [editLoop]
  | cons c rest ih =>
    intro pre s hlen
    match s with
    | a :: t =>
      have hget : (pre ++ a :: t)[pre.length]? = some a := by
        rw [List.getElem?_append_right (Nat.le_refl _)]
        simp
      have hset : (pre ++ a :: t).set pre.length (ed a c) = (pre ++ [ed a c]) ++ t := by
        rw [List.set_append_right _ _ (Nat.le_refl _)]
        simp
      have hlen2 : t.length = rest.length := by
        simpa using hlen
      have ih2 := ih (pre ++ [ed a c]) t hlen2
      have hplen : (pre ++ [ed a c]).length = pre.length + 1 := by simp
      rw [hplen] at ih2
      simp only [List.append_assoc, List.singleton_append] at ih2
      simp only [editLoop, hget, hed, hset, List.append_assoc, List.singleton_append, ih2,
        List.zipWith_cons_cons]

theorem sendPhase_ok (tr : Transport) (hsend : ∀ k, tr.sendOk k = true) :
    ∀ (posts : List String) (k fresh : Nat) (s : List Handle),
      sendPhase tr posts k fresh s =
        (s ++ (List.range posts.length).map (fresh + ·), posts.map Call.send,
          fresh + posts.length) := by
  intro posts
  induction posts with
  | nil =>
    intro k fresh s
    simp [sendPhase]
  | cons c rest ih =>
    intro k fresh s
    have ih2 := ih (k + 1) (fresh + 1) (s ++ [fresh])
    have hfe : (fun i => fresh + 1 + i) = (fun i => fresh + Nat.succ i) := by
      funext i
      omega
    simp only [sendPhase, hsend k, if_true, ih2, List.length_cons, List.map_cons,
      List.range_succ_eq_map, List.map_map, Function.comp, List.append_assoc,
      List.singleton_append, hfe, Prod.mk.injEq]
    trivial

theorem sendPhase_calls (tr : Transport) :
    ∀ (posts : List String) (k fresh : Nat) (s : List Handle),
      (sendPhase tr posts k fresh s).2.1 = posts.map Call.send := by
  intro posts
  induction posts with
  | nil =>
    intro k fresh s
    rfl
  | cons c rest ih =>
    intro k fresh s
    by_cases hk : tr.sendOk k
    · simp [sendPhase, hk, ih]
    · simp [sendPhase, hk, ih]

theorem mergeOld_nil (tf : List (String × JValue)) : mergeOld tf [] = tf := by
  induction tf with
  | nil => simp [mergeOld]
  | cons kv rest ih =>
    obtain ⟨k, v⟩ := kv
    simp [mergeOld, findField, ih]

theorem deepAssign_obj_obj (tf sf : List (String × JValue)) :
    deepAssign (JValue.obj tf) (JValue.obj sf) =
      JValue.obj (mergeOld tf sf ++ mergeNew tf sf) := by
  simp [deepAssign]

theorem deepAssign_obj_nil_left (sf : List (String × JValue)) :
    deepAssign (JValue.obj []) (JValue.obj sf) = JValue.obj sf := by
  rw [deepAssign_obj_obj]
  simp [mergeOld, mergeNew, findField, List.filter_eq_self]

theorem deepAssign_obj_nil_right (tf : List (String × JValue)) :
    deepAssign (JValue.obj tf) (JValue.obj []) = JValue.obj tf := by
  rw [deepAssign_obj_obj, mergeOld_nil]
  simp [mergeNew]

theorem layerOrEmpty_isObj (x : Option JValue) : ∃ fs, layerOrEmpty x = JValue.obj fs := by
  rcases x with _ | v
  · exact ⟨[], rfl⟩
  · cases v <;> exact ⟨_, rfl⟩

theorem deepAssignStep_obj (tf : List (String × JValue)) (s : Option JValue) :
    deepAssignStep (JValue.obj tf) s = deepAssign (JValue.obj tf) (layerOrEmpty s) := by
  rcases s with _ | v
  · simp [deepAssignStep, layerOrEmpty, deepAssign_obj_nil_right]
  · cases v <;> simp [deepAssignStep, layerOrEmpty, deepAssign_obj_nil_right]

theorem ledgerSet_self (led : Ledger) (j : Nat) (v : List Handle)
    (h : ledgerGet led j = some v) : ledgerSet led j v = led := by
  induction led with
  | nil => simp [ledgerGet] at h
  | cons e rest ih =>
    obtain ⟨i, w⟩ := e
    simp only [ledgerGet] at h
    by_cases hij : i = j
    · rw [if_pos hij] at h
      cases h
      simp [ledgerSet, hij]
    · rw [if_neg hij] at h
      simp [ledgerSet, hij, ih h]

theorem findField_setField_self (d : List (String × JValue)) (k : String) (v : JValue) :
    findField (setField d k v) k = some v := by
  induction d with
  | nil => simp [setField, findField]
  | cons kv rest ih =>
    obtain ⟨k0, v0⟩ := kv
    by_cases hk : k0 = k
    · simp [setField, hk, findField]
    · simp [setField, hk, findField, ih]

theorem findField_setField_other (d : List (String × JValue)) (k k2 : String) (v : JValue)
    (hne : k2 ≠ k) : findField (setField d k v) k2 = findField d k2 := by
  have hne2 : k ≠ k2 := fun h => hne h.symm
  induction d with
  | nil => simp [setField, findField, hne2]
  | cons kv rest ih =>
    obtain ⟨k0, v0⟩ := kv
    by_cases hk : k0 = k
    · subst hk
      simp [setField, findField, hne2]
    · simp [setField, hk, findField, ih]

theorem normalizeProp_other (d : List (String × JValue)) (p p2 : String) (hne : p2 ≠ p) :
    findField (normalizeProp d p) p2 = findField d p2 := by
  rw [normalizeProp]
  split
  · exact findField_setField_other d p p2 _ hne
  · rfl

theorem jTypeof_object_shape (x : Option JValue)
    (h1 : jTypeof x = "object") (h2 : jIsArray x = false) :
    ∃ v, x = some v ∧ jTypeof (some v) = "object" ∧ jIsArray (some v) = false := by
  rcases x with _ | v
  · simp [jTypeof] at h1
  · exact ⟨v, rfl, h1, h2⟩

theorem normalizeProp_shape (d : List (String × JValue)) (p : String) :
    ∃ v, findField (normalizeProp d p) p = some v ∧
      jTypeof (some v) = "object" ∧ jIsArray (some v) = false := by
  rw [normalizeProp]
  split
  · exact ⟨JValue.obj [], findField_setField_self d p _, rfl, rfl⟩
  · rename_i hcond
    simp only [Bool.or_eq_true, not_or, bne_iff_ne, ne_eq, not_not, Bool.not_eq_true] at hcond
    obtain ⟨v, hv, hsh⟩ := jTypeof_object_shape _ hcond.1 hcond.2
    exact ⟨v, by rw [hv], hsh⟩

theorem normalizeProp_replace (d : List (String × JValue)) (p : String)
    (h : ¬(jTypeof (findField d p) = "object" ∧ jIsArray (findField d p) = false)) :
    normalizeProp d p = setField d p (JValue.obj []) := by
  rcases not_and_or.mp h with h | h
  · simp [normalizeProp, bne_iff_ne, h]
  · rw [Bool.not_eq_false] at h
    simp [normalizeProp, h]

theorem dispatchFrom_spec (d : SaikoData) (place : Place) :
    ∀ (plugins : List Plugin) (resp : Option Response),
      dispatchFrom d place resp plugins =
        ((plugins.filter (fun p => isPluginEnabled d p.name place)).map Plugin.name,
         match resp with
         | some r => some r
         | none =>
             (plugins.filter (fun p => isPluginEnabled d p.name place)).findSome?
               Plugin.handlerResult) := by
  intro plugins
  induction plugins with
  | nil =>
    intro resp
    cases resp <;> simp [dispatchFrom]
  | cons p rest ih =>
    intro resp
    by_cases hp : isPluginEnabled d p.name place
    · cases resp with
      | none =>
        cases hr : p.handlerResult with
        | none =>
          simp [dispatchFrom, hp, ih, List.filter_cons, hr, List.findSome?_cons]
        | some r =>
          simp [dispatchFrom, hp, ih, List.filter_cons, hr, List.findSome?_cons]
      | some r =>
        simp [dispatchFrom, hp, ih, List.filter_cons]
    · cases resp with
      | none => simp [dispatchFrom, hp, ih, List.filter_cons]
      | some r => simp [dispatchFrom, hp, ih, List.filter_cons]

/-! Claim theorems. -/

/-- C1: for every event with a non-null response whose edits sequence is
non-empty and at most as long as the ledger sequence for the trigger, when
every transport call succeeds the reconciler deletes exactly
`sent.length - edits.length` messages from the tail of the ledger sequence
(last message first, down to index `edits.length`), then edits `sent[index]`
with `edits[index]` for each index, replacing the ledger entry at that index
with the handle returned by the edit operation (posts, if any, are then sent
and appended). -/
theorem reconcile_edit_shrink (tr : Transport) (eventName : String) (msgId fresh : Nat)
    (r : Response) (led : Ledger) (ed : Handle → String → Handle)
    (hne : r.edits ≠ [])
    (hlen : r.edits.length ≤ ((ledgerGet led msgId).getD []).length)
    (hdel : ∀ x, tr.delOk x = true)
    (hedit : ∀ h c, tr.editRes h c = some (ed h c))
    (hsend : ∀ k, tr.sendOk k = true) :
    reconcile tr eventName msgId (some r) led fresh =
      { ledger := ledgerSet led msgId
          (List.zipWith ed (((ledgerGet led msgId).getD []).take r.edits.length) r.edits
            ++ (List.range r.posts.length).map (fresh + ·))
        calls :=
          ((((ledgerGet led msgId).getD []).drop r.edits.length).reverse.map Call.del)
            ++ List.zipWith Call.edit (((ledgerGet led msgId).getD []).take r.edits.length)
                r.edits
            ++ r.posts.map Call.send
        fresh := fresh + r.posts.length } := by
  have hpos : 0 < r.edits.length := List.length_pos.mpr hne
  have hngt : ¬ (r.edits.length > ((ledgerGet led msgId).getD []).length) := by omega
  have hshrunk := deleteTail_ok tr r.edits.length ((ledgerGet led msgId).getD [])
    (fun x _ => hdel x) hlen
  have htake : ((((ledgerGet led msgId).getD []).take r.edits.length)).length =
      r.edits.length := by
    simp [List.length_take]
    omega
  have hedited := editLoop_ok tr ed hedit r.edits []
    ((((ledgerGet led msgId).getD []).take r.edits.length)) htake
  simp only [List.nil_append, List.length_nil] at hedited
  simp [reconcile, hpos, hngt, hshrunk, hedited, sendPhase_ok tr hsend]

/-- C1 witness: ledger `[m1, m2, m3]` with edits `[E1]` yields deletes of `m3`
then `m2` and final ledger `[edit(m1, E1)]`. -/
theorem reconcile_edit_shrink_witness :
    reconcile trAllOk "messageUpdate" 7 (some { posts := [], edits := ["E1"] })
        [(7, [1, 2, 3])] 10 =
      { ledger := [(7, [1])], calls := [Call.del 3, Call.del 2, Call.edit 1 "E1"],
        fresh := 10 } :=
  reconcile_edit_shrink trAllOk "messageUpdate" 7 10 { posts := [], edits := ["E1"] }
    [(7, [1, 2, 3])] (fun h _ => h) (by decide) (by decide) (fun _ => rfl) (fun _ _ => rfl)
    (fun _ => rfl)

/-- C2: for every event with a non-null response whose edits sequence is
strictly longer than the ledger sequence for the trigger, when every transport
call succeeds the reconciler deletes every message in the ledger sequence,
appends every edit onto the posts sequence, sends all posts fresh, and the
final ledger entry consists only of freshly allocated handles, none of which
is a pre-existing handle. -/
theorem reconcile_edit_overflow (tr : Transport) (eventName : String) (msgId fresh : Nat)
    (r : Response) (led : Ledger)
    (hlen : ((ledgerGet led msgId).getD []).length < r.edits.length)
    (hdel : ∀ x, tr.delOk x = true)
    (hsend : ∀ k, tr.sendOk k = true)
    (hpre : ∀ x ∈ (ledgerGet led msgId).getD [], x < fresh) :
    (reconcile tr eventName msgId (some r) led fresh =
      { ledger := ledgerSet led msgId
          ((List.range (r.posts.length + r.edits.length)).map (fresh + ·))
        calls := ((ledgerGet led msgId).getD []).map Call.del
          ++ (r.posts ++ r.edits).map Call.send
        fresh := fresh + (r.posts.length + r.edits.length) }) ∧
    ∀ x ∈ (List.range (r.posts.length + r.edits.length)).map (fresh + ·),
      x ∉ (ledgerGet led msgId).getD [] := by
  have hpos : 0 < r.edits.length := by omega
  have hwipe : deleteAllFront tr ((ledgerGet led msgId).getD []) =
      ([], ((ledgerGet led msgId).getD []).map Call.del) :=
    deleteAllFront_ok tr _ (fun x _ => hdel x)
  constructor
  · simp [reconcile, hpos, hlen, hwipe, sendPhase_ok tr hsend]
  · intro x hx hmem
    have hlt := hpre x hmem
    simp only [List.mem_map, List.mem_range] at hx
    obtain ⟨i, hi, hxe⟩ := hx
    subst hxe
    exact Nat.lt_irrefl fresh (Nat.lt_of_le_of_lt (Nat.le_add_right fresh i) hlt)

/-- C2 witness: ledger `[m1]` with edits `[E1, E2]` yields a delete of `m1`
and sends of `E1` and `E2` as new posts; the two resulting handles are fresh
and distinct from `m1`. -/
theorem reconcile_edit_overflow_witness :
    (reconcile trAllOk "messageUpdate" 3 (some { posts := [], edits := ["E1", "E2"] })
        [(3, [1])] 10 =
      { ledger := [(3, [10, 11])],
        calls := [Call.del 1, Call.send "E1", Call.send "E2"], fresh := 12 }) ∧
    ∀ x ∈ (List.range 2).map (10 + ·), x ∉ ([1] : List Handle) :=
  ⟨(reconcile_edit_overflow trAllOk "messageUpdate" 3 10
      { posts := [], edits := ["E1", "E2"] } [(3, [1])] (by decide) (fun _ => rfl)
      (fun _ => rfl) (by decide)).1,
   (reconcile_edit_overflow trAllOk "messageUpdate" 3 10
      { posts := [], edits := ["E1", "E2"] } [(3, [1])] (by decide) (fun _ => rfl)
      (fun _ => rfl) (by decide)).2⟩

/-- C3 counterexample: with a transport on which deleting handle 1 fails, a
messageDelete event with no response over ledger `[1, 2]` attempts only the
delete of handle 1 — the delete of handle 2, in the same phase, is never
attempted (the `catch` wraps the whole loop), and both handles remain. This
refutes the claim that a failing call never aborts the rest of its phase. -/
theorem reconcile_delete_failure_aborts_phase :
    reconcile trFailDelOne "messageDelete" 0 none [(0, [1, 2])] 10 =
      { ledger := [(0, [1, 2])], calls := [Call.del 1], fresh := 10 } := rfl

/-- C3 (amended): failure independence holds for the send phase only — every
post gets a send attempt on any transport, failing sends included — while in
the delete and edit phases a failing call aborts the remaining calls of that
phase (the failed delete's handle and its successors stay; edits after a
failed edit are not attempted), though later phases of the same event still
run. -/
theorem reconcile_failure_policy (tr : Transport) :
    (∀ (eventName : String) (msgId fresh : Nat) (r : Response) (led : Ledger),
       r.edits = [] →
       (reconcile tr eventName msgId (some r) led fresh).calls = r.posts.map Call.send) ∧
    (∀ (h : Handle) (t : List Handle), tr.delOk h = false →
       deleteAllFront tr (h :: t) = (h :: t, [Call.del h])) ∧
    (∀ (s : List Handle) (i : Nat) (h : Handle) (c : String) (rest : List String),
       s[i]? = some h → tr.editRes h c = none →
       editLoop tr s i (c :: rest) = (s, [Call.edit h c])) := by
  refine ⟨?_, ?_, ?_⟩
  · intro eventName msgId fresh r led hedits
    simp [reconcile, hedits, sendPhase_calls]
  · intro h t hfail
    simp [deleteAllFront, hfail]
  · intro s i h c rest hget hfail
    simp [editLoop, hget, hfail]

/-- C3 (amended) witness: on a transport whose first send fails both posts are
still attempted; a failing delete ends the delete phase after one attempt; a
failing edit ends the edit phase after one attempt. -/
theorem reconcile_failure_policy_witness :
    ((reconcile trFailSendZero "message" 0 (some { posts := ["P", "Q"], edits := [] })
        [] 10).calls = [Call.send "P", Call.send "Q"]) ∧
    deleteAllFront trFailDelOne [1, 2] = ([1, 2], [Call.del 1]) ∧
    editLoop trFailEdit [7] 0 ["E"] = ([7], [Call.edit 7 "E"]) :=
  ⟨(reconcile_failure_policy trFailSendZero).1 "message" 0 10
      { posts := ["P", "Q"], edits := [] } [] rfl,
   (reconcile_failure_policy trFailDelOne).2.1 1 [2] rfl,
   (reconcile_failure_policy trFailEdit).2.2 [7] 0 7 "E" [] rfl rfl⟩

/-- C4: when no plugin produces a response, a messageDelete or messageUpdate
event (with all transport deletes succeeding) deletes every message in the
ledger sequence for the trigger in ledger order, front to back, leaving the
entry empty; a message (create) event with no response changes nothing. -/
theorem reconcile_no_response (tr : Transport) (msgId fresh : Nat) (led : Ledger)
    (hdel : ∀ x, tr.delOk x = true) :
    (∀ ev, ev = "messageDelete" ∨ ev = "messageUpdate" →
      reconcile tr ev msgId none led fresh =
        { ledger := if (ledgerGet led msgId).isSome then ledgerSet led msgId [] else led
          calls := ((ledgerGet led msgId).getD []).map Call.del
          fresh := fresh }) ∧
    reconcile tr "message" msgId none led fresh =
      { ledger := led, calls := [], fresh := fresh } := by
  have hfront : deleteAllFront tr ((ledgerGet led msgId).getD []) =
      ([], ((ledgerGet led msgId).getD []).map Call.del) :=
    deleteAllFront_ok tr _ (fun x _ => hdel x)
  constructor
  · intro ev hev
    rcases hev with rfl | rfl <;> simp [reconcile, hfront]
  · have hself : (if (ledgerGet led msgId).isSome then
        ledgerSet led msgId ((ledgerGet led msgId).getD []) else led) = led := by
      cases hg : ledgerGet led msgId with
      | none => simp
      | some v => simp [ledgerSet_self led msgId v hg]
    simp only [reconcile]
    simp [hself]

/-- C4 witness: ledger `[m1, m2]`; a delete event with no response deletes
`m1` then `m2` and empties the entry, while a create event with no response
leaves ledger and transport untouched. -/
theorem reconcile_no_response_witness :
    (reconcile trAllOk "messageDelete" 5 none [(5, [1, 2])] 10 =
      { ledger := [(5, [])], calls := [Call.del 1, Call.del 2], fresh := 10 }) ∧
    (reconcile trAllOk "message" 5 none [(5, [1, 2])] 10 =
      { ledger := [(5, [1, 2])], calls := [], fresh := 10 }) :=
  ⟨(reconcile_no_response trAllOk 5 10 [(5, [1, 2])] (fun _ => rfl)).1 "messageDelete"
      (Or.inl rfl),
   (reconcile_no_response trAllOk 5 10 [(5, [1, 2])] (fun _ => rfl)).2⟩

/-- C5 counterexample: a messageDelete event whose response is present with an
EMPTY edits sequence deletes nothing and keeps the ledger entry `[1, 2]`
unchanged (on a transport where every delete would succeed) — because
`!(response || emptyObject).edits` is false for an empty array, which is
truthy in JavaScript. This refutes the claim that such an event deletes every
message and clears the entry. -/
theorem reconcile_delete_empty_edits_keeps_messages :
    reconcile trAllOk "messageDelete" 0 (some { posts := [], edits := [] }) [(0, [1, 2])] 10 =
      { ledger := [(0, [1, 2])], calls := [], fresh := 10 } := rfl

/-- C5 (amended): for every delete event whose aggregate response is present
but has an empty edits sequence, the reconciler performs no deletions and no
edits: the previously sent messages stay in the ledger entry, with any new
posts sent and appended after them (the presence of the edits array — even
empty — counts as requesting persistence; only a null response triggers
deletion on delete events). -/
theorem reconcile_response_empty_edits (tr : Transport) (eventName : String)
    (msgId fresh : Nat) (r : Response) (led : Ledger)
    (hedits : r.edits = [])
    (hsend : ∀ k, tr.sendOk k = true) :
    reconcile tr eventName msgId (some r) led fresh =
      { ledger := ledgerSet led msgId ((ledgerGet led msgId).getD []
          ++ (List.range r.posts.length).map (fresh + ·))
        calls := r.posts.map Call.send
        fresh := fresh + r.posts.length } := by
  simp [reconcile, hedits, sendPhase_ok tr hsend]

/-- C5 (amended) witness: a messageDelete event with response
`posts = [P], edits = []` over ledger `[1, 2]` deletes nothing, sends `P`,
and the entry becomes `[1, 2, fresh]`. -/
theorem reconcile_response_empty_edits_witness :
    reconcile trAllOk "messageDelete" 0 (some { posts := ["P"], edits := [] })
        [(0, [1, 2])] 10 =
      { ledger := [(0, [1, 2, 10])], calls := [Call.send "P"], fresh := 11 } :=
  reconcile_response_empty_edits trAllOk "messageDelete" 0 10
    { posts := ["P"], edits := [] } [(0, [1, 2])] rfl (fun _ => rfl)

/-- C6: for every text channel in a guild the resolved place config is the
recursive deep merge of the defaults layer, then the guild layer, then the
channel layer (missing layers treated as empty mappings, channel winning key
conflicts over guild winning over defaults); on the spec's example —
defaults `a = 1, b = (x = 1)`, guild `b = (x = 2, y = 3)`, channel `a = 5` —
the result is `a = 5, b = (x = 2, y = 3)`. -/
theorem merge_precedence :
    (∀ (d : SaikoData) (ch : Channel), ch.type = "text" →
        getChannelConfig d ch = mergedPlaceConfigSpec d ch) ∧
    getChannelConfig exMergeData exChannel =
      JValue.obj [("a", JValue.num 5),
        ("b", JValue.obj [("x", JValue.num 2), ("y", JValue.num 3)])] := by
  constructor
  · intro d ch htext
    obtain ⟨df, hdf⟩ := layerOrEmpty_isObj (some d.defaults)
    obtain ⟨gf, hgf⟩ := layerOrEmpty_isObj (jIndex d.guilds ch.guildId)
    simp only [getChannelConfig, deepAssignSources, mergedPlaceConfigSpec, htext, ne_eq,
      not_true_eq_false, if_false, List.foldl_cons, List.foldl_nil]
    rw [deepAssignStep_obj, hdf, deepAssign_obj_nil_left]
    rw [deepAssignStep_obj, hgf, deepAssign_obj_obj]
    rw [deepAssignStep_obj]
  · simp [getChannelConfig, deepAssignSources, deepAssignStep, exMergeData, exChannel,
      jIndex, findField, deepAssign, mergeOld, mergeNew]

/-- C6 witness: the merge-precedence refinement instantiated at the spec's
example data and its text channel. -/
theorem merge_precedence_witness :
    getChannelConfig exMergeData exChannel = mergedPlaceConfigSpec exMergeData exChannel :=
  merge_precedence.1 exMergeData exChannel rfl

/-- C7: isPluginEnabled is a strict allow-list — it is true exactly when the
resolved plugin config fragment binds the key `enabled` to the boolean true;
a fragment binding `enabled` to the string "true" or to the number 1, or a
missing fragment, yields false. -/
theorem plugin_enablement_allowlist :
    (∀ (d : SaikoData) (pluginName : String) (place : Place),
        isPluginEnabled d pluginName place = true ↔
          jIndex (getPluginConfig d pluginName place) "enabled" = some (JValue.bool true)) ∧
    isPluginEnabled enabledStrData "A" (Place.channel dmChannel) = false ∧
    isPluginEnabled enabledNumData "A" (Place.channel dmChannel) = false ∧
    isPluginEnabled noFragmentData "A" (Place.channel dmChannel) = false := by
  refine ⟨?_, ?_, ?_, ?_⟩
  · intro d pn pl
    constructor
    · intro h
      simp only [isPluginEnabled] at h
      split at h
      · assumption
      · exact absurd h (by simp)
    · intro h
      simp only [isPluginEnabled, h]
  · simp [isPluginEnabled, getPluginConfig, getChannelConfig, deepAssignSources,
      deepAssignStep, enabledStrData, dmChannel, jIndex, findField, jOrDefault, jTruthy,
      deepAssign, mergeOld, mergeNew]
  · simp [isPluginEnabled, getPluginConfig, getChannelConfig, deepAssignSources,
      deepAssignStep, enabledNumData, dmChannel, jIndex, findField, jOrDefault, jTruthy,
      deepAssign, mergeOld, mergeNew]
  · simp [isPluginEnabled, getPluginConfig, getChannelConfig, deepAssignSources,
      deepAssignStep, noFragmentData, dmChannel, jIndex, findField, jOrDefault, jTruthy,
      deepAssign, mergeOld, mergeNew]

/-- C8: the dispatcher invokes every enabled plugin's handler in registration
order regardless of earlier results, and the aggregate response is the first
non-null response among the enabled plugins in that order; in particular with
two enabled plugins both returning non-null responses, the first plugin's
response is emitted. -/
theorem dispatch_first_response_wins :
    (∀ (d : SaikoData) (place : Place) (plugins : List Plugin),
      dispatch d place plugins =
        ((plugins.filter (fun p => isPluginEnabled d p.name place)).map Plugin.name,
         (plugins.filter (fun p => isPluginEnabled d p.name place)).findSome?
           Plugin.handlerResult)) ∧
    dispatch bothEnabledData (Place.channel dmChannel)
        [{ name := "A", handlerResult := some respA },
         { name := "B", handlerResult := some respB }] =
      (["A", "B"], some respA) := by
  constructor
  · intro d place plugins
    rw [dispatch, dispatchFrom_spec]
  · simp [dispatch, dispatchFrom, isPluginEnabled, getPluginConfig, getChannelConfig,
      deepAssignSources, deepAssignStep, bothEnabledData, dmChannel, jIndex, findField,
      jOrDefault, jTruthy, deepAssign, mergeOld, mergeNew]

/-- C9 counterexample: with a logger constructed with logging disabled,
`Logger#panic` returns without reaching `process.exit(1)`, so `loadData` on a
data object with no token returns normally instead of terminating the
process. This refutes the claim that a missing token always terminates. -/
theorem loadData_disabled_logger_returns :
    loadData disabledLogger [] =
      LoadResult.ok [("defaults", JValue.obj []), ("guilds", JValue.obj []),
        ("channels", JValue.obj [])] := rfl

/-- C9 (amended): when the logger is enabled and shows panics (the defaults),
a data object whose token property is undefined makes loadData terminate the
process with exit code 1; when the token is present, loadData returns the
normalised data and never terminates, whatever the logger settings. -/
theorem loadData_token_fatal (logger : Logger) (d : List (String × JValue)) :
    (findField d "token" = none → logger.enabled = true → logger.showPanics = true →
      loadData logger d = LoadResult.exited 1) ∧
    (findField d "token" ≠ none →
      loadData logger d = LoadResult.ok (objectProperties.foldl normalizeProp d)) := by
  constructor
  · intro ht he hp
    simp [loadData, requiredProperties, ht, Logger.panicTerminates, he, hp]
  · intro ht
    have hn : (findField d "token").isNone = false := by
      rcases hx : findField d "token" with _ | v
      · exact absurd hx ht
      · rfl
    simp [loadData, requiredProperties, hn]

/-- C9 (amended) witness: a default logger and tokenless data exit with code
1; a disabled logger with a token present returns the normalised data. -/
theorem loadData_token_fatal_witness :
    (loadData defaultLogger [] = LoadResult.exited 1) ∧
    (loadData disabledLogger [("token", JValue.str "t")] =
      LoadResult.ok [("token", JValue.str "t"), ("defaults", JValue.obj []),
        ("guilds", JValue.obj []), ("channels", JValue.obj [])]) :=
  ⟨(loadData_token_fatal defaultLogger []).1 rfl rfl rfl,
   (loadData_token_fatal disabledLogger [("token", JValue.str "t")]).2
     (by simp [findField])⟩

/-- C10 counterexample: a loaded data object whose `defaults` property is
null survives loadData unchanged — null is NOT replaced by an empty object,
because JavaScript's `typeof null` is "object". This refutes the claim that
every non-object value (null included) is replaced. -/
theorem loadData_null_survives :
    loadData defaultLogger [("token", JValue.str "t"), ("defaults", JValue.null)] =
      LoadResult.ok [("token", JValue.str "t"), ("defaults", JValue.null),
        ("guilds", JValue.obj []), ("channels", JValue.obj [])] := rfl

/-- C10 (amended): after loadData completes normally, each of `defaults`,
`guilds` and `channels` is present with a value whose JavaScript typeof is
"object" and which is not an array — that is, a non-array object or null;
any value of a different shape (array, string, number, boolean, or absent)
is replaced by an empty object, while null is kept. -/
theorem loadData_layer_shapes (logger : Logger) (d d2 : List (String × JValue))
    (h : loadData logger d = LoadResult.ok d2) :
    ∀ p ∈ objectProperties,
      (∃ v, findField d2 p = some v ∧ jTypeof (some v) = "object" ∧
        jIsArray (some v) = false) ∧
      (¬(jTypeof (findField d p) = "object" ∧ jIsArray (findField d p) = false) →
        findField d2 p = some (JValue.obj [])) := by
  have hd2 : d2 = objectProperties.foldl normalizeProp d := by
    simp only [loadData] at h
    split at h
    · cases h
    · cases h
      rfl
  subst hd2
  intro p hp
  simp only [objectProperties, List.mem_cons, List.not_mem_nil, or_false] at hp
  simp only [objectProperties, List.foldl_cons, List.foldl_nil]
  have hdg : ("defaults" : String) ≠ "guilds" := by decide
  have hdc : ("defaults" : String) ≠ "channels" := by decide
  have hgc : ("guilds" : String) ≠ "channels" := by decide
  have hgd : ("guilds" : String) ≠ "defaults" := by decide
  have hcd : ("channels" : String) ≠ "defaults" := by decide
  have hcg : ("channels" : String) ≠ "guilds" := by decide
  rcases hp with rfl | rfl | rfl
  · constructor
    · obtain ⟨v, hv, hsh⟩ := normalizeProp_shape d "defaults"
      exact ⟨v, by rw [normalizeProp_other _ "channels" "defaults" hdc,
        normalizeProp_other _ "guilds" "defaults" hdg, hv], hsh⟩
    · intro hbad
      rw [normalizeProp_other _ "channels" "defaults" hdc,
        normalizeProp_other _ "guilds" "defaults" hdg,
        normalizeProp_replace d "defaults" hbad, findField_setField_self]
  · have hpres : findField (normalizeProp d "defaults") "guilds" = findField d "guilds" :=
      normalizeProp_other _ "defaults" "guilds" hgd
    constructor
    · obtain ⟨v, hv, hsh⟩ := normalizeProp_shape (normalizeProp d "defaults") "guilds"
      exact ⟨v, by rw [normalizeProp_other _ "channels" "guilds" hgc, hv], hsh⟩
    · intro hbad
      rw [normalizeProp_other _ "channels" "guilds" hgc,
        normalizeProp_replace _ "guilds" (by rw [hpres]; exact hbad),
        findField_setField_self]
  · have hpres : findField (normalizeProp (normalizeProp d "defaults") "guilds")
        "channels" = findField d "channels" := by
      rw [normalizeProp_other _ "guilds" "channels" hcg,
        normalizeProp_other _ "defaults" "channels" hcd]
    constructor
    · obtain ⟨v, hv, hsh⟩ :=
        normalizeProp_shape (normalizeProp (normalizeProp d "defaults") "guilds") "channels"
      exact ⟨v, hv, hsh⟩
    · intro hbad
      rw [normalizeProp_replace _ "channels" (by rw [hpres]; exact hbad),
        findField_setField_self]

/-- C10 (amended) witness: loading data holding only a token yields the three
layer properties as empty objects, each a non-array object. -/
theorem loadData_layer_shapes_witness :
    (∃ v, findField [("token", JValue.str "t"), ("defaults", JValue.obj []),
        ("guilds", JValue.obj []), ("channels", JValue.obj [])] "defaults" = some v ∧
      jTypeof (some v) = "object" ∧ jIsArray (some v) = false) ∧
    findField [("token", JValue.str "t"), ("defaults", JValue.obj []),
        ("guilds", JValue.obj []), ("channels", JValue.obj [])] "defaults" =
      some (JValue.obj []) :=
  ⟨(loadData_layer_shapes defaultLogger [("token", JValue.str "t")] _ rfl "defaults"
      (by decide)).1,
   (loadData_layer_shapes defaultLogger [("token", JValue.str "t")] _ rfl "defaults"
      (by decide)).2 (by decide)⟩

end Saiko
